import Mathlib

/- Verification development for the FuelTrackingApp repository.

   The Python source (src/api/utils.py and src/api/views.py) is embedded
   shallowly: distances and prices become rationals, the external geodesic
   distance library and the Google reverse geocoding call become oracle
   functions passed as parameters, pandas rows become a Station structure,
   and the while loop of find_gas_stations_on_route becomes a fuel indexed
   recursion whose fuel is shown sufficient.  A Python exception escaping a
   function is modelled by an Option result being none. -/

namespace FuelTrack

/-- A route waypoint: (latitude, longitude) embedded as rationals. -/
abbrev Point : Type := ℚ × ℚ

/-- Constant VEHICLE_RANGE_MILES from src/api/utils.py. -/
def VEHICLE_RANGE_MILES : ℚ := 500

/-- Constant MPG shared by src/api/utils.py and src/api/views.py. -/
def MPG : ℚ := 10

/-- Constant VEHICLE_RANGE_MILES as redefined in src/api/views.py. -/
def views_VEHICLE_RANGE_MILES : ℚ := 440

/-- The default retail price 3.50 used when a station record omits it. -/
def FALLBACK_PRICE : ℚ := 7/2

/-- Round a rational to the nearest integer with ties going to the even
    neighbour, matching Python round on exact halves. -/
def roundHalfEven (q : ℚ) : ℤ :=
  let f := Int.floor q
  let r := q - f
  if r < 1/2 then f
  else if 1/2 < r then f + 1
  else if f % 2 = 0 then f else f + 1

/-- Python round(x, 2): round to two decimal places. -/
def round2 (q : ℚ) : ℚ := (roundHalfEven (q * 100) : ℚ) / 100

/-- A fuel station record (one row of the loaded CSV): the truckstop name,
    address, city, state and the optional retail price per gallon. -/
structure Station where
  name : String
  address : String
  city : String
  state : String
  price : Option ℚ
deriving DecidableEq

/-- A fuel stop, mirroring the dict appended by find_gas_stations_on_route. -/
structure FuelStop where
  name : String
  address : String
  city : String
  state : String
  fuel_price_per_gallon : ℚ
  fuel_needed_gallons : ℚ
  total_cost : ℚ
  miles_traveled : ℚ
deriving DecidableEq

/-- Normalisation applied to a station row inside
    find_nearest_gas_station_by_city: strip and lowercase the city, strip
    and uppercase the state (pandas str.strip, str.lower, str.upper). -/
def normStation (st : Station) : Station :=
  { st with city := st.city.trim.toLower, state := st.state.trim.toUpper }

/-- Python str.title as used on the normalized city names stored in a
    FuelStop: a letter that follows a non letter is uppercased, every
    other letter is lowercased, so any non letter acts as a word
    boundary (e.g. winston-salem becomes Winston-Salem). -/
def pyTitle (s : String) : String :=
  String.mk ((s.data.foldl
    (fun (acc : List Char × Bool) ch =>
      if ch.isAlpha then
        ((if acc.2 then ch.toLower else ch.toUpper) :: acc.1, true)
      else (ch :: acc.1, false))
    ([], false)).1.reverse)

/-- The scan inside get_coordinates_at_distance: walk consecutive waypoint
    pairs accumulating distance and return the second point of the first
    pair at which the running total reaches the target. -/
def coordScan (d : Point → Point → ℚ) (target : ℚ) : ℚ → List Point → Option Point
  | _, [] => none
  | _, [_] => none
  | total, p :: q :: rest =>
    let tot := total + d p q
    if target ≤ tot then some q else coordScan d target tot (q :: rest)

/-- get_coordinates_at_distance from src/api/utils.py.  Fewer than two
    waypoints yield none, modelling the (None, None) sentinel return; if
    the scan never reaches the target the last waypoint is returned. -/
def get_coordinates_at_distance (d : Point → Point → ℚ) (miles_traveled : ℚ)
    (waypoints : List Point) : Option Point :=
  if waypoints.length < 2 then none
  else
    match coordScan d miles_traveled 0 waypoints with
    | some p => some p
    | none => waypoints.getLast?

/-- Total approximate length of a route: the sum of consecutive waypoint
    distances, as accumulated by get_coordinates_at_distance. -/
def routeLen (d : Point → Point → ℚ) : List Point → ℚ
  | p :: q :: rest => d p q + routeLen d (q :: rest)
  | _ => 0

/-- find_nearest_waypoint from src/api/utils.py: linear scan keeping the
    strictly smallest distance seen so far; the first waypoint always
    replaces the initial infinity. -/
def find_nearest_waypoint (d : Point → Point → ℚ) (p : Point)
    (waypoints : List Point) : Option Point :=
  (waypoints.foldl
    (fun acc wp =>
      match acc with
      | none => some (d p wp, wp)
      | some (m, c) => if d p wp < m then some (d p wp, wp) else some (m, c))
    none).map Prod.snd

/-- The filter predicate of find_nearest_gas_station_by_city: the
    normalized station row matches the normalized stop city and state. -/
def stMatches (c s : String) (st : Station) : Bool :=
  st.city == c && st.state == s

/-- find_nearest_gas_station_by_city from src/api/utils.py.  The result is
    the found station (if any) together with the updated used_stations set,
    modelled as a list with set semantics.  The first catalog row whose
    normalized city and state match is inspected; if its name was already
    used the function returns none without scanning any further row. -/
def find_nearest_gas_station_by_city (stop_city stop_state : String)
    (gas_stations : List Station) (used_stations : List String) :
    Option Station × List String :=
  let c := stop_city.trim.toLower
  let s := stop_state.trim.toUpper
  match (gas_stations.map normStation).filter (stMatches c s) with
  | [] => (none, used_stations)
  | st :: _ =>
    if st.name ∈ used_stations then (none, used_stations)
    else (some st, List.insert st.name used_stations)

/-- The loop condition of the planner: isUtils selects the
    src/api/utils.py revision (while miles < total) against the
    src/api/views.py revision (while miles ≤ total). -/
def planCond (isUtils : Bool) (miles total : ℚ) : Bool :=
  match isUtils with
  | true => decide (miles < total)
  | false => decide (miles ≤ total)

/-- The while loop of find_gas_stations_on_route, fuel indexed.  isUtils
    selects between the two source revisions: utils.py uses the strict
    loop condition and checks the found station with
    (if not nearest_station), which evaluates the truthiness of a pandas
    Series and raises ValueError whenever a station IS found, so the
    utils revision dies right there and never appends a stop; views.py
    uses the non strict condition and the correct (is None) check and
    appends.  R is the vehicle range constant, M the miles per gallon
    constant, d the geodesic oracle and geo the reverse geocoding oracle.
    The outer Option is none when the fuel runs out; the inner Option is
    none when the Python code would raise (the Series truthiness
    ValueError above, or a degenerate waypoint list blowing up the
    nearest waypoint computation). -/
def planLoopFuel (isUtils : Bool) (R M total : ℚ) (d : Point → Point → ℚ)
    (geo : Point → Option (String × String)) (waypoints : List Point)
    (gas_stations : List Station) :
    Nat → ℚ → List String → List FuelStop → Option (Option (List FuelStop))
  | 0, miles, _, stops =>
    if planCond isUtils miles total then none else some (some stops)
  | n+1, miles, used, stops =>
    if planCond isUtils miles total then
      let m := miles + R
      match get_coordinates_at_distance d m waypoints with
      | none => some none
      | some p =>
        match find_nearest_waypoint d p waypoints with
        | none => some none
        | some np =>
          match geo np with
          | none => planLoopFuel isUtils R M total d geo waypoints gas_stations n m used stops
          | some (c, s) =>
            if c.isEmpty || s.isEmpty then
              planLoopFuel isUtils R M total d geo waypoints gas_stations n m used stops
            else
              match find_nearest_gas_station_by_city c s gas_stations used with
              | (none, used1) =>
                planLoopFuel isUtils R M total d geo waypoints gas_stations n m used1 stops
              | (some st, used1) =>
                if isUtils then some none
                else
                  let used2 := List.insert st.name used1
                  let fuel_needed := R / M
                  let fuel_price := st.price.getD FALLBACK_PRICE
                  let cost := round2 (fuel_needed * fuel_price)
                  planLoopFuel isUtils R M total d geo waypoints gas_stations n m used2
                    (stops ++ [{ name := st.name, address := st.address,
                                 city := pyTitle st.city, state := st.state,
                                 fuel_price_per_gallon := round2 fuel_price,
                                 fuel_needed_gallons := round2 fuel_needed,
                                 total_cost := cost,
                                 miles_traveled := min m total }])
    else some (some stops)

/-- Fuel that always suffices for the loop when 1 ≤ R: the ceiling of the
    total distance plus one. -/
def fuelFor (total : ℚ) : Nat := (⌈total⌉ + 1).toNat

/-- find_gas_stations_on_route from src/api/utils.py: strict loop
    condition, range 500, and the Series truthiness check that raises
    ValueError as soon as any station is found, so a real run can only
    return the empty list (every iteration skipped) or die.  A none
    result models an uncaught exception. -/
def find_gas_stations_on_route (total_distance : ℚ) (gas_stations : List Station)
    (waypoints : List Point) (d : Point → Point → ℚ)
    (geo : Point → Option (String × String)) : Option (List FuelStop) :=
  (planLoopFuel true VEHICLE_RANGE_MILES MPG total_distance d geo waypoints
    gas_stations (fuelFor total_distance) 0 [] []).join

/-- find_gas_stations_on_route as redefined in src/api/views.py (the copy
    the HTTP endpoint actually calls): loop condition miles ≤ total and
    range 440. -/
def views_find_gas_stations_on_route (total_distance : ℚ)
    (gas_stations : List Station) (waypoints : List Point)
    (d : Point → Point → ℚ) (geo : Point → Option (String × String)) :
    Option (List FuelStop) :=
  (planLoopFuel false views_VEHICLE_RANGE_MILES MPG total_distance d geo
    waypoints gas_stations (fuelFor total_distance) 0 [] []).join

/-- calculate_total_fuel_cost from src/api/utils.py. -/
def calculate_total_fuel_cost (fuel_stops : List FuelStop) : ℚ :=
  round2 ((fuel_stops.map FuelStop.total_cost).sum)

/-- The consecutive leg lengths determined by a list of cumulative stop
    distances: previous cumulative point to the next, ending at total. -/
def legsAux (total : ℚ) : ℚ → List ℚ → List ℚ
  | prev, [] => [total - prev]
  | prev, a :: l => (a - prev) :: legsAux total a l

/-- The legs of a plan: origin to first stop, stop to stop, and last stop
    to destination. -/
def legsOf (total : ℚ) (stops : List FuelStop) : List ℚ :=
  legsAux total 0 (stops.map FuelStop.miles_traveled)

/-- The number of loop iterations the views planner (non strict loop
    condition) performs starting with the cursor at m. -/
def itersFromLe (R total m : ℚ) : Nat := (⌊(total - m) / R⌋ + 1).toNat

/-- Every consecutive gap, from start through the list and on to total, is
    at most R. -/
def denseFrom (R total : ℚ) : ℚ → List ℚ → Prop
  | start, [] => total - start ≤ R
  | start, a :: l => a - start ≤ R ∧ denseFrom R total a l

/-- Shared concrete fixtures for witness runs: a distance oracle putting
    600 miles between consecutive integer latitudes. -/
def dLin : Point → Point → ℚ := fun p q => 600 * |q.1 - p.1|

/-- Two waypoint route fixture. -/
def wps2 : List Point := [(0, 0), (1, 0)]

/-- Three waypoint route fixture. -/
def wps3 : List Point := [(0, 0), (1, 0), (2, 0)]

/-- Geocoding oracle fixture: resolves the second and third fixture
    waypoints to two distinct cities and fails elsewhere. -/
def geoAB : Point → Option (String × String) := fun p =>
  if p = ((1 : ℚ), (0 : ℚ)) then some ("a", "AA")
  else if p = ((2 : ℚ), (0 : ℚ)) then some ("b", "BB") else none

/-- Station fixture in city a with a known price. -/
def stA : Station := ⟨"A", "", "a", "AA", some 3⟩

/-- Station fixture in city b with no recorded price. -/
def stB : Station := ⟨"B", "", "b", "BB", none⟩

/- ### Helper lemmas about the station lookup -/

lemma find_station_none_used {c s : String} {gs : List Station}
    {used u : List String} {r : Option Station}
    (h : find_nearest_gas_station_by_city c s gs used = (r, u)) (hr : r = none) :
    u = used := by
  subst hr
  simp only [find_nearest_gas_station_by_city] at h
  split at h
  · exact ((Prod.mk.injEq _ _ _ _).mp h).2.symm
  · split at h
    · exact ((Prod.mk.injEq _ _ _ _).mp h).2.symm
    · exact absurd ((Prod.mk.injEq _ _ _ _).mp h).1 (by simp)

lemma find_station_some {c s : String} {gs : List Station}
    {used u : List String} {st : Station}
    (h : find_nearest_gas_station_by_city c s gs used = (some st, u)) :
    st ∈ gs.map normStation ∧ st.name ∉ used ∧ u = List.insert st.name used := by
  simp only [find_nearest_gas_station_by_city] at h
  split at h
  · exact absurd ((Prod.mk.injEq _ _ _ _).mp h).1 (by simp)
  · rename_i st0 rest hm
    split at h
    · exact absurd ((Prod.mk.injEq _ _ _ _).mp h).1 (by simp)
    · rename_i hu
      obtain ⟨h1, h2⟩ := (Prod.mk.injEq _ _ _ _).mp h
      obtain rfl : st0 = st := Option.some.inj h1
      refine ⟨?_, hu, h2.symm⟩
      have hmm : st0 ∈ (gs.map normStation).filter
          (stMatches c.trim.toLower s.trim.toUpper) := by
        rw [hm]; exact List.mem_cons_self _ _
      exact List.mem_of_mem_filter hmm

/- ### Helper lemmas about the waypoint helpers -/

lemma get_coordinates_isSome (d : Point → Point → ℚ) (t : ℚ) {wps : List Point}
    (h2 : 2 ≤ wps.length) : (get_coordinates_at_distance d t wps).isSome := by
  unfold get_coordinates_at_distance
  rw [if_neg (by omega)]
  rcases hs : coordScan d t 0 wps with _ | p
  · simp only [Option.isSome]
    have hne : wps ≠ [] := by
      intro hn; rw [hn] at h2; simp at h2
    rcases hl : wps.getLast? with _ | q
    · exact absurd (List.getLast?_eq_none_iff.mp hl) hne
    · simp
  · simp

lemma foldl_nearest_isSome (d : Point → Point → ℚ) (p : Point) :
    ∀ (l : List Point) (acc : Option (ℚ × Point)), (acc.isSome ∨ l ≠ []) →
      (l.foldl (fun acc wp =>
        match acc with
        | none => some (d p wp, wp)
        | some (m, c) => if d p wp < m then some (d p wp, wp) else some (m, c))
        acc).isSome := by
  intro l
  induction l with
  | nil =>
    intro acc hacc
    rcases hacc with h | h
    · simpa using h
    · exact absurd rfl h
  | cons w l ih =>
    intro acc _
    apply ih
    left
    rcases acc with _ | ⟨m, c⟩
    · simp
    · by_cases hlt : d p w < m <;> simp [hlt]

lemma find_nearest_isSome (d : Point → Point → ℚ) (p : Point) {wps : List Point}
    (h : wps ≠ []) : (find_nearest_waypoint d p wps).isSome := by
  unfold find_nearest_waypoint
  have hs := foldl_nearest_isSome d p wps none (Or.inr h)
  rcases Option.isSome_iff_exists.mp hs with ⟨x, hx⟩
  rw [hx]
  simp

/- ### Arithmetic facts used by the loop inductions -/

lemma measure_decrease (R total miles : ℚ) (hR : 1 ≤ R) :
    ⌈total - (miles + R)⌉ ≤ ⌈total - miles⌉ - 1 := by
  calc ⌈total - (miles + R)⌉ ≤ ⌈(total - miles) - 1⌉ := by
        apply Int.ceil_mono; linarith
    _ = ⌈total - miles⌉ - 1 := Int.ceil_sub_one _

lemma itersFromLe_step (R total miles : ℚ) (hR : 0 < R) (hc : miles ≤ total) :
    itersFromLe R total (miles + R) + 1 = itersFromLe R total miles := by
  unfold itersFromLe
  have hrw : (total - (miles + R)) / R = (total - miles) / R - 1 := by
    field_simp
    ring
  rw [hrw]
  rw [show (total - miles) / R - 1 = (total - miles) / R - ((1 : ℤ) : ℚ) by
    norm_num]
  rw [Int.floor_sub_int]
  have h0 : (0 : ℚ) ≤ (total - miles) / R :=
    div_nonneg (by linarith) (le_of_lt hR)
  have h1 : (0 : ℤ) ≤ ⌊(total - miles) / R⌋ := Int.floor_nonneg.mpr h0
  omega

lemma itersFromLe_zero (R total miles : ℚ) (hR : 0 < R) (hc : ¬ miles ≤ total) :
    itersFromLe R total miles = 0 := by
  unfold itersFromLe
  push_neg at hc
  have hq : (total - miles) / R < 0 := div_neg_of_neg_of_pos (by linarith) hR
  have hz : ⌊(total - miles) / R⌋ < 0 := by
    have := Int.floor_lt.mpr
      (show (total - miles) / R < ((0 : ℤ) : ℚ) by exact_mod_cast hq)
    exact_mod_cast this
  omega

/- ### Fuel sufficiency: the loop always halts within the allotted fuel -/

lemma planCond_lt {b : Bool} {miles total : ℚ}
    (h : planCond b miles total = true) : miles ≤ total := by
  cases b <;> simp [planCond] at h <;> linarith

lemma fuel_suff (b : Bool) (R M total : ℚ) (d : Point → Point → ℚ)
    (geo : Point → Option (String × String)) (wps : List Point)
    (gs : List Station) (hR : 1 ≤ R) :
    ∀ (n : Nat) (miles : ℚ) (used : List String) (stops : List FuelStop),
      (⌈total - miles⌉ + 1).toNat ≤ n →
      (planLoopFuel b R M total d geo wps gs n miles used stops).isSome := by
  intro n
  induction n with
  | zero =>
    intro miles used stops hn
    have hlt : total < miles := by
      by_contra hcon
      push_neg at hcon
      have h0 : (0 : ℚ) ≤ total - miles := by linarith
      have : (0 : ℤ) ≤ ⌈total - miles⌉ := by positivity
      omega
    have hc : planCond b miles total = false := by
      cases b <;> simp [planCond] <;> linarith
    simp [planLoopFuel, hc]
  | succ n ih =>
    intro miles used stops hn
    rcases hcv : planCond b miles total with _ | _
    · simp [planLoopFuel, hcv]
    · have hle : miles ≤ total := planCond_lt hcv
      have hceil0 : (0 : ℤ) ≤ ⌈total - miles⌉ := by
        have : (0 : ℚ) ≤ total - miles := by linarith
        positivity
      have hstep : (⌈total - (miles + R)⌉ + 1).toNat ≤ n := by
        have := measure_decrease R total miles hR
        omega
      simp only [planLoopFuel, hcv, if_true]
      rcases hg : get_coordinates_at_distance d (miles + R) wps with _ | p
      · simp
      · simp only
        rcases hf : find_nearest_waypoint d p wps with _ | np
        · simp
        · simp only
          rcases hgeo : geo np with _ | ⟨c, s⟩
          · exact ih (miles + R) used stops hstep
          · simp only
            rcases he : c.isEmpty || s.isEmpty with _ | _
            · simp only [Bool.false_eq_true, if_false]
              rcases hst : find_nearest_gas_station_by_city c s gs used with ⟨r, used1⟩
              rcases r with _ | st
              · exact ih (miles + R) used1 stops hstep
              · cases b
                · simp only [Bool.false_eq_true, if_false]
                  exact ih (miles + R) _ _ hstep
                · simp
            · simp only [if_true]
              exact ih (miles + R) used stops hstep

/- ### With at least two waypoints the views loop cannot crash -/

lemma plan_total (R M total : ℚ) (d : Point → Point → ℚ)
    (geo : Point → Option (String × String)) (wps : List Point)
    (gs : List Station) (hR : 1 ≤ R) (hw : 2 ≤ wps.length) :
    ∀ (n : Nat) (miles : ℚ) (used : List String) (stops : List FuelStop),
      (⌈total - miles⌉ + 1).toNat ≤ n →
      ∃ L, planLoopFuel false R M total d geo wps gs n miles used stops =
        some (some L) := by
  intro n
  induction n with
  | zero =>
    intro miles used stops hn
    have hlt : total < miles := by
      by_contra hcon
      push_neg at hcon
      have h0 : (0 : ℚ) ≤ total - miles := by linarith
      have : (0 : ℤ) ≤ ⌈total - miles⌉ := by positivity
      omega
    have hc : planCond false miles total = false := by
      simp [planCond]
      linarith
    exact ⟨stops, by simp [planLoopFuel, hc]⟩
  | succ n ih =>
    intro miles used stops hn
    rcases hcv : planCond false miles total with _ | _
    · exact ⟨stops, by simp [planLoopFuel, hcv]⟩
    · have hle : miles ≤ total := planCond_lt hcv
      have hceil0 : (0 : ℤ) ≤ ⌈total - miles⌉ := by
        have : (0 : ℚ) ≤ total - miles := by linarith
        positivity
      have hstep : (⌈total - (miles + R)⌉ + 1).toNat ≤ n := by
        have := measure_decrease R total miles hR
        omega
      simp only [planLoopFuel, hcv, if_true]
      rcases hg : get_coordinates_at_distance d (miles + R) wps with _ | p
      · have hsome := get_coordinates_isSome d (miles + R) hw
        rw [hg] at hsome
        simp at hsome
      · simp only
        have hne : wps ≠ [] := by
          intro hx; rw [hx] at hw; simp at hw
        rcases hf : find_nearest_waypoint d p wps with _ | np
        · have := find_nearest_isSome d p hne
          rw [hf] at this
          simp at this
        · simp only
          rcases hgeo : geo np with _ | ⟨c, s⟩
          · exact ih (miles + R) used stops hstep
          · simp only
            rcases he : c.isEmpty || s.isEmpty with _ | _
            · simp only [Bool.false_eq_true, if_false]
              rcases hst : find_nearest_gas_station_by_city c s gs used with ⟨r, used1⟩
              rcases r with _ | st
              · exact ih (miles + R) used1 stops hstep
              · simp only [Bool.false_eq_true, if_false]
                exact ih (miles + R) _ _ hstep
            · simp only [if_true]
              exact ih (miles + R) used stops hstep

/- ### When no iteration can resolve a station the loop appends nothing -/

lemma plan_skip (b : Bool) (R M total : ℚ) (d : Point → Point → ℚ)
    (geo : Point → Option (String × String)) (wps : List Point)
    (gs : List Station) (hR : 1 ≤ R) (hw : 2 ≤ wps.length)
    (H : (∀ p, geo p = none) ∨
      (∀ c s u, (find_nearest_gas_station_by_city c s gs u).1 = none)) :
    ∀ (n : Nat) (miles : ℚ) (used : List String) (stops : List FuelStop),
      (⌈total - miles⌉ + 1).toNat ≤ n →
      planLoopFuel b R M total d geo wps gs n miles used stops =
        some (some stops) := by
  intro n
  induction n with
  | zero =>
    intro miles used stops hn
    have hlt : total < miles := by
      by_contra hcon
      push_neg at hcon
      have h0 : (0 : ℚ) ≤ total - miles := by linarith
      have : (0 : ℤ) ≤ ⌈total - miles⌉ := by positivity
      omega
    have hc : planCond b miles total = false := by
      cases b <;> simp [planCond] <;> linarith
    simp [planLoopFuel, hc]
  | succ n ih =>
    intro miles used stops hn
    rcases hcv : planCond b miles total with _ | _
    · simp [planLoopFuel, hcv]
    · have hle : miles ≤ total := planCond_lt hcv
      have hceil0 : (0 : ℤ) ≤ ⌈total - miles⌉ := by
        have : (0 : ℚ) ≤ total - miles := by linarith
        positivity
      have hstep : (⌈total - (miles + R)⌉ + 1).toNat ≤ n := by
        have := measure_decrease R total miles hR
        omega
      simp only [planLoopFuel, hcv, if_true]
      rcases hg : get_coordinates_at_distance d (miles + R) wps with _ | p
      · have hsome := get_coordinates_isSome d (miles + R) hw
        rw [hg] at hsome
        simp at hsome
      · simp only
        have hne : wps ≠ [] := by
          intro hx; rw [hx] at hw; simp at hw
        rcases hf : find_nearest_waypoint d p wps with _ | np
        · have := find_nearest_isSome d p hne
          rw [hf] at this
          simp at this
        · simp only
          rcases hgeo : geo np with _ | ⟨c, s⟩
          · exact ih (miles + R) used stops hstep
          · rcases H with H | H
            · rw [H np] at hgeo
              exact absurd hgeo (by simp)
            · simp only
              rcases he : c.isEmpty || s.isEmpty with _ | _
              · simp only [Bool.false_eq_true, if_false]
                rcases hst : find_nearest_gas_station_by_city c s gs used with ⟨r, used1⟩
                rcases r with _ | st
                · exact ih (miles + R) used1 stops hstep
                · have := H c s used
                  rw [hst] at this
                  simp at this
              · simp only [if_true]
                exact ih (miles + R) used stops hstep

/- ### The utils.py revision never appends: a returned plan is unchanged -/

lemma plan_master_utils (R M total : ℚ) (d : Point → Point → ℚ)
    (geo : Point → Option (String × String)) (wps : List Point)
    (gs : List Station) :
    ∀ (n : Nat) (miles : ℚ) (used : List String) (stops L : List FuelStop),
      planLoopFuel true R M total d geo wps gs n miles used stops =
        some (some L) →
      L = stops := by
  intro n
  induction n with
  | zero =>
    intro miles used stops L h
    rcases hcv : planCond true miles total with _ | _
    · simp only [planLoopFuel, hcv, Bool.false_eq_true, if_false,
        Option.some.injEq] at h
      exact h.symm
    · simp [planLoopFuel, hcv] at h
  | succ n ih =>
    intro miles used stops L h
    rcases hcv : planCond true miles total with _ | _
    · simp only [planLoopFuel, hcv, Bool.false_eq_true, if_false,
        Option.some.injEq] at h
      exact h.symm
    · simp only [planLoopFuel, hcv, if_true] at h
      rcases hg : get_coordinates_at_distance d (miles + R) wps with _ | p
      · rw [hg] at h; simp at h
      · rw [hg] at h
        simp only at h
        rcases hf : find_nearest_waypoint d p wps with _ | np
        · rw [hf] at h; simp at h
        · rw [hf] at h
          simp only at h
          rcases hgeo : geo np with _ | ⟨c, s⟩
          · rw [hgeo] at h
            simp only at h
            exact ih _ _ _ _ h
          · rw [hgeo] at h
            simp only at h
            rcases he : c.isEmpty || s.isEmpty with _ | _
            · rw [he] at h
              simp only [Bool.false_eq_true, if_false] at h
              rcases hst : find_nearest_gas_station_by_city c s gs used with ⟨r, used1⟩
              rw [hst] at h
              rcases r with _ | st
              · simp only at h
                exact ih _ _ _ _ h
              · simp only [if_true] at h
                simp at h
            · rw [he] at h
              simp only [if_true] at h
              exact ih _ _ _ _ h

/- ### The master invariant of the views.py loop -/

lemma plan_master_views (R M total : ℚ) (d : Point → Point → ℚ)
    (geo : Point → Option (String × String)) (wps : List Point)
    (gs : List Station) (hR : 0 < R) :
    ∀ (n : Nat) (miles : ℚ) (used : List String) (stops L : List FuelStop),
      planLoopFuel false R M total d geo wps gs n miles used stops =
        some (some L) →
      ∃ tail, L = stops ++ tail
        ∧ List.Chain' (· ≤ ·) (tail.map FuelStop.miles_traveled)
        ∧ (tail.map FuelStop.name).Nodup
        ∧ ∀ fs ∈ tail,
            miles ≤ fs.miles_traveled ∧ fs.miles_traveled ≤ total
            ∧ (∃ k : ℕ, 1 ≤ k ∧ fs.miles_traveled = min (miles + k * R) total)
            ∧ fs.name ∉ used
            ∧ fs.fuel_needed_gallons = round2 (R / M)
            ∧ ∃ st ∈ gs.map normStation, fs.name = st.name
                ∧ fs.fuel_price_per_gallon = round2 (st.price.getD FALLBACK_PRICE)
                ∧ fs.total_cost = round2 (R / M * st.price.getD FALLBACK_PRICE) := by
  intro n
  induction n with
  | zero =>
    intro miles used stops L h
    rcases hcv : planCond false miles total with _ | _
    · simp only [planLoopFuel, hcv, Bool.false_eq_true, if_false,
        Option.some.injEq] at h
      exact ⟨[], by simp [h], by simp, by simp, by simp⟩
    · simp [planLoopFuel, hcv] at h
  | succ n ih =>
    intro miles used stops L h
    rcases hcv : planCond false miles total with _ | _
    · simp only [planLoopFuel, hcv, Bool.false_eq_true, if_false,
        Option.some.injEq] at h
      exact ⟨[], by simp [h], by simp, by simp, by simp⟩
    · have hm : miles ≤ total := by simpa [planCond] using hcv
      simp only [planLoopFuel, hcv, if_true] at h
      rcases hg : get_coordinates_at_distance d (miles + R) wps with _ | p
      · rw [hg] at h; simp at h
      · rw [hg] at h
        simp only at h
        rcases hf : find_nearest_waypoint d p wps with _ | np
        · rw [hf] at h; simp at h
        · rw [hf] at h
          simp only at h
          rcases hgeo : geo np with _ | ⟨c, s⟩
          · rw [hgeo] at h
            simp only at h
            obtain ⟨tail, hL, hch, hnd, hel⟩ := ih (miles + R) used stops L h
            refine ⟨tail, hL, hch, hnd, ?_⟩
            intro fs hfs
            obtain ⟨h1, h2, ⟨k, hk1, hk2⟩, h4, h5, h6⟩ := hel fs hfs
            refine ⟨by linarith, h2, ⟨k + 1, by omega, ?_⟩, h4, h5, h6⟩
            rw [hk2]
            congr 1
            push_cast
            ring
          · rw [hgeo] at h
            simp only at h
            rcases he : c.isEmpty || s.isEmpty with _ | _
            · rw [he] at h
              simp only [Bool.false_eq_true, if_false] at h
              rcases hst : find_nearest_gas_station_by_city c s gs used with ⟨r, used1⟩
              rw [hst] at h
              rcases r with _ | st
              · simp only at h
                have hu1 : used1 = used := find_station_none_used hst rfl
                subst hu1
                obtain ⟨tail, hL, hch, hnd, hel⟩ := ih (miles + R) used1 stops L h
                refine ⟨tail, hL, hch, hnd, ?_⟩
                intro fs hfs
                obtain ⟨h1, h2, ⟨k, hk1, hk2⟩, h4, h5, h6⟩ := hel fs hfs
                refine ⟨by linarith, h2, ⟨k + 1, by omega, ?_⟩, h4, h5, h6⟩
                rw [hk2]
                congr 1
                push_cast
                ring
              · simp only [Bool.false_eq_true, if_false] at h
                obtain ⟨hstmem, hstnotused, hused1⟩ := find_station_some hst
                have hused2 : List.insert st.name used1 = List.insert st.name used := by
                  rw [hused1]
                  exact List.insert_of_mem (List.mem_insert_self _ _)
                rw [hused2] at h
                obtain ⟨tail', hL, hch, hnd, hel⟩ :=
                  ih (miles + R) (List.insert st.name used) _ L h
                refine ⟨{ name := st.name, address := st.address,
                          city := pyTitle st.city, state := st.state,
                          fuel_price_per_gallon := round2 (st.price.getD FALLBACK_PRICE),
                          fuel_needed_gallons := round2 (R / M),
                          total_cost := round2 (R / M * st.price.getD FALLBACK_PRICE),
                          miles_traveled := min (miles + R) total } :: tail',
                  ?_, ?_, ?_, ?_⟩
                · rw [hL]
                  simp
                · rw [List.map_cons]
                  refine List.chain'_cons'.mpr ⟨?_, hch⟩
                  intro x hx
                  have hx' : x ∈ tail'.map FuelStop.miles_traveled :=
                    List.mem_of_mem_head? hx
                  obtain ⟨fs, hfs, rfl⟩ := List.mem_map.mp hx'
                  have := (hel fs hfs).1
                  calc min (miles + R) total ≤ miles + R := min_le_left _ _
                    _ ≤ fs.miles_traveled := this
                · rw [List.map_cons]
                  refine List.nodup_cons.mpr ⟨?_, hnd⟩
                  intro hmem
                  obtain ⟨fs, hfs, hname⟩ := List.mem_map.mp hmem
                  have h4 := (hel fs hfs).2.2.2.1
                  rw [hname] at h4
                  exact h4 (List.mem_insert_self _ _)
                · intro fs hfs
                  rcases List.mem_cons.mp hfs with rfl | hfs'
                  · refine ⟨le_min (by linarith) hm, min_le_right _ _,
                      ⟨1, le_refl 1, by push_cast; ring_nf⟩, hstnotused, rfl,
                      st, hstmem, rfl, rfl, rfl⟩
                  · obtain ⟨h1, h2, ⟨k, hk1, hk2⟩, h4, h5, h6⟩ := hel fs hfs'
                    refine ⟨by linarith, h2, ⟨k + 1, by omega, ?_⟩, ?_, h5, h6⟩
                    · rw [hk2]
                      congr 1
                      push_cast
                      ring
                    · intro hmem
                      exact h4 (List.mem_insert_of_mem hmem)
            · rw [he] at h
              simp only [if_true] at h
              obtain ⟨tail, hL, hch, hnd, hel⟩ := ih (miles + R) used stops L h
              refine ⟨tail, hL, hch, hnd, ?_⟩
              intro fs hfs
              obtain ⟨h1, h2, ⟨k, hk1, hk2⟩, h4, h5, h6⟩ := hel fs hfs
              refine ⟨by linarith, h2, ⟨k + 1, by omega, ?_⟩, h4, h5, h6⟩
              rw [hk2]
              congr 1
              push_cast
              ring

/- ### Counting iterations of the views loop -/

lemma plan_count_le (R M total : ℚ) (d : Point → Point → ℚ)
    (geo : Point → Option (String × String)) (wps : List Point)
    (gs : List Station) (hR : 0 < R) :
    ∀ (n : Nat) (miles : ℚ) (used : List String) (stops L : List FuelStop),
      planLoopFuel false R M total d geo wps gs n miles used stops =
        some (some L) →
      ∃ tail, L = stops ++ tail
        ∧ tail.length ≤ itersFromLe R total miles
        ∧ (tail.length = itersFromLe R total miles →
            tail.map FuelStop.miles_traveled =
              (List.range (itersFromLe R total miles)).map
                (fun j : ℕ => min (miles + ((j : ℚ) + 1) * R) total)) := by
  intro n
  induction n with
  | zero =>
    intro miles used stops L h
    rcases hcv : planCond false miles total with _ | _
    · simp only [planLoopFuel, hcv, Bool.false_eq_true, if_false,
        Option.some.injEq] at h
      have h0 : itersFromLe R total miles = 0 :=
        itersFromLe_zero R total miles hR (by simpa [planCond] using hcv)
      exact ⟨[], by simp [h], by simp, by simp [h0]⟩
    · simp [planLoopFuel, hcv] at h
  | succ n ih =>
    intro miles used stops L h
    rcases hcv : planCond false miles total with _ | _
    · simp only [planLoopFuel, hcv, Bool.false_eq_true, if_false,
        Option.some.injEq] at h
      have h0 : itersFromLe R total miles = 0 :=
        itersFromLe_zero R total miles hR (by simpa [planCond] using hcv)
      exact ⟨[], by simp [h], by simp, by simp [h0]⟩
    · have hm : miles ≤ total := by simpa [planCond] using hcv
      have hI := itersFromLe_step R total miles hR hm
      simp only [planLoopFuel, hcv, if_true] at h
      rcases hg : get_coordinates_at_distance d (miles + R) wps with _ | p
      · rw [hg] at h; simp at h
      · rw [hg] at h
        simp only at h
        rcases hf : find_nearest_waypoint d p wps with _ | np
        · rw [hf] at h; simp at h
        · rw [hf] at h
          simp only at h
          rcases hgeo : geo np with _ | ⟨c, s⟩
          · rw [hgeo] at h
            simp only at h
            obtain ⟨tail, hL, hlen, _⟩ := ih (miles + R) used stops L h
            exact ⟨tail, hL, by omega, fun hq => absurd hq (by omega)⟩
          · rw [hgeo] at h
            simp only at h
            rcases he : c.isEmpty || s.isEmpty with _ | _
            · rw [he] at h
              simp only [Bool.false_eq_true, if_false] at h
              rcases hst : find_nearest_gas_station_by_city c s gs used with ⟨r, used1⟩
              rw [hst] at h
              rcases r with _ | st
              · simp only at h
                obtain ⟨tail, hL, hlen, _⟩ := ih (miles + R) used1 stops L h
                exact ⟨tail, hL, by omega, fun hq => absurd hq (by omega)⟩
              · simp only [Bool.false_eq_true, if_false] at h
                obtain ⟨tail', hL, hlen, hfull⟩ := ih (miles + R) _ _ L h
                refine ⟨{ name := st.name, address := st.address,
                          city := pyTitle st.city, state := st.state,
                          fuel_price_per_gallon := round2 (st.price.getD FALLBACK_PRICE),
                          fuel_needed_gallons := round2 (R / M),
                          total_cost := round2 (R / M * st.price.getD FALLBACK_PRICE),
                          miles_traveled := min (miles + R) total } :: tail',
                  by rw [hL]; simp, by simp; omega, ?_⟩
                intro hq
                simp only [List.length_cons] at hq
                have hq' : tail'.length = itersFromLe R total (miles + R) := by omega
                have hmap := hfull hq'
                rw [List.map_cons, hmap, ← hI, List.range_succ_eq_map,
                  List.map_cons, List.map_map]
                congr 1
                · norm_num
                · apply List.map_congr_left
                  intro j hj
                  simp only [Function.comp]
                  congr 1
                  push_cast
                  ring
            · rw [he] at h
              simp only [if_true] at h
              obtain ⟨tail, hL, hlen, _⟩ := ih (miles + R) used stops L h
              exact ⟨tail, hL, by omega, fun hq => absurd hq (by omega)⟩

/- ### From the explicit cumulative distances to the leg bound -/

lemma denseFrom_const (R total : ℚ) (hR : 0 ≤ R) :
    ∀ l : List ℚ, (∀ x ∈ l, x = total) → denseFrom R total total l := by
  intro l
  induction l with
  | nil =>
    intro _
    show total - total ≤ R
    simpa using hR
  | cons a l ih =>
    intro hall
    have ha : a = total := hall a (List.mem_cons_self _ _)
    subst ha
    exact ⟨by simpa using hR,
      ih (fun x hx => hall x (List.mem_cons_of_mem _ hx))⟩

lemma spec_dense_general (R total : ℚ) (hR : 0 < R) :
    ∀ (k : ℕ) (m : ℚ), total - m ≤ ((k : ℚ) + 1) * R →
      denseFrom R total m
        ((List.range k).map (fun j : ℕ => min (m + ((j : ℚ) + 1) * R) total)) := by
  intro k
  induction k with
  | zero =>
    intro m hk
    show total - m ≤ R
    push_cast at hk
    linarith
  | succ k ih =>
    intro m hk
    rw [List.range_succ_eq_map, List.map_cons, List.map_map]
    by_cases hmr : total ≤ m + R
    · have hmin : min (m + (((0 : ℕ) : ℚ) + 1) * R) total = total := by
        rw [min_eq_right (by push_cast; linarith)]
      rw [hmin]
      refine ⟨by linarith, ?_⟩
      apply denseFrom_const R total (le_of_lt hR)
      intro x hx
      obtain ⟨j, hj, rfl⟩ := List.mem_map.mp hx
      simp only [Function.comp]
      apply min_eq_right
      have hjR : (0 : ℚ) ≤ ((j : ℚ) + 1) * R := by positivity
      push_cast
      linarith
    · push_neg at hmr
      have hmin : min (m + (((0 : ℕ) : ℚ) + 1) * R) total = m + R := by
        rw [min_eq_left (by push_cast; linarith)]
        push_cast
        ring
      rw [hmin]
      refine ⟨by linarith, ?_⟩
      have heq : (List.range k).map
          ((fun j : ℕ => min (m + ((j : ℚ) + 1) * R) total) ∘ Nat.succ) =
          (List.range k).map
            (fun j : ℕ => min ((m + R) + ((j : ℚ) + 1) * R) total) := by
        apply List.map_congr_left
        intro j hj
        simp only [Function.comp]
        congr 1
        push_cast
        ring
      rw [heq]
      apply ih (m + R)
      push_cast at hk ⊢
      linarith


lemma dense_legs (R total : ℚ) :
    ∀ (l : List ℚ) (s : ℚ), denseFrom R total s l →
      ∀ x ∈ legsAux total s l, x ≤ R := by
  intro l
  induction l with
  | nil =>
    intro s hd x hx
    simp only [legsAux, List.mem_singleton] at hx
    subst hx
    simpa [denseFrom] using hd
  | cons a l ih =>
    intro s hd x hx
    obtain ⟨h1, h2⟩ := hd
    simp only [legsAux, List.mem_cons] at hx
    rcases hx with rfl | hx
    · exact h1
    · exact ih a h2 x hx

/- ### Lemmas about the coordinate scan -/

lemma routeLen_nonneg {d : Point → Point → ℚ} (hd : ∀ p q, 0 ≤ d p q) :
    ∀ l : List Point, 0 ≤ routeLen d l := by
  intro l
  induction l with
  | nil => simp [routeLen]
  | cons p rest ih =>
    cases rest with
    | nil => simp [routeLen]
    | cons q rest' =>
      rw [routeLen]
      have := hd p q
      linarith

lemma coordScan_beyond {d : Point → Point → ℚ} {t : ℚ} (hd : ∀ p q, 0 ≤ d p q) :
    ∀ (l : List Point) (acc : ℚ), acc + routeLen d l < t →
      coordScan d t acc l = none := by
  intro l
  induction l with
  | nil => intro acc _; rfl
  | cons p rest ih =>
    cases rest with
    | nil => intro acc _; rfl
    | cons q rest' =>
      intro acc h
      rw [routeLen] at h
      have h0 : 0 ≤ routeLen d (q :: rest') := routeLen_nonneg hd _
      simp only [coordScan]
      rw [if_neg (by linarith)]
      exact ih (acc + d p q) (by linarith)

/- ### Unpacking a successful planner run into the raw loop -/

lemma utils_planner_eq {total : ℚ} {gs : List Station} {wps : List Point}
    {d : Point → Point → ℚ} {geo : Point → Option (String × String)}
    {L : List FuelStop}
    (h : find_gas_stations_on_route total gs wps d geo = some L) :
    planLoopFuel true VEHICLE_RANGE_MILES MPG total d geo wps gs
      (fuelFor total) 0 [] [] = some (some L) := by
  unfold find_gas_stations_on_route at h
  rcases hx : planLoopFuel true VEHICLE_RANGE_MILES MPG total d geo wps gs
      (fuelFor total) 0 [] [] with _ | o
  · rw [hx] at h
    simp [Option.join] at h
  · rw [hx] at h
    rcases o with _ | L2
    · simp [Option.join] at h
    · have hL2 : L2 = L := by simpa [Option.join] using h
      rw [hL2]

lemma views_planner_eq {total : ℚ} {gs : List Station} {wps : List Point}
    {d : Point → Point → ℚ} {geo : Point → Option (String × String)}
    {L : List FuelStop}
    (h : views_find_gas_stations_on_route total gs wps d geo = some L) :
    planLoopFuel false views_VEHICLE_RANGE_MILES MPG total d geo wps gs
      (fuelFor total) 0 [] [] = some (some L) := by
  unfold views_find_gas_stations_on_route at h
  rcases hx : planLoopFuel false views_VEHICLE_RANGE_MILES MPG total d geo
      wps gs (fuelFor total) 0 [] [] with _ | o
  · rw [hx] at h
    simp [Option.join] at h
  · rw [hx] at h
    rcases o with _ | L2
    · simp [Option.join] at h
    · have hL2 : L2 = L := by simpa [Option.join] using h
      rw [hL2]

/- ### A completed utils.py run can only be the empty plan or a crash -/

lemma utils_planner_cases (total : ℚ) (gs : List Station) (wps : List Point)
    (d : Point → Point → ℚ) (geo : Point → Option (String × String)) :
    find_gas_stations_on_route total gs wps d geo = some [] ∨
    find_gas_stations_on_route total gs wps d geo = none := by
  have hs := fuel_suff true VEHICLE_RANGE_MILES MPG total d geo wps gs
    (by norm_num [VEHICLE_RANGE_MILES]) (fuelFor total) 0 [] []
    (by unfold fuelFor; simp)
  unfold find_gas_stations_on_route
  rcases hx : planLoopFuel true VEHICLE_RANGE_MILES MPG total d geo wps gs
      (fuelFor total) 0 [] [] with _ | o
  · rw [hx] at hs
    simp at hs
  · rcases o with _ | L
    · right
      rfl
    · left
      have hL : L = [] := plan_master_utils VEHICLE_RANGE_MILES MPG total d
        geo wps gs (fuelFor total) 0 [] [] L hx
      rw [hL]
      rfl

/- ### The views iteration count pushes past the total distance -/

lemma itersFromLe_bound (R total : ℚ) (hR : 0 < R) :
    total - 0 ≤ ((itersFromLe R total 0 : ℚ) + 1) * R := by
  have h1 : total / R < ((⌊total / R⌋ : ℚ) + 1) := Int.lt_floor_add_one _
  have h2 : total < ((⌊total / R⌋ : ℚ) + 1) * R := by
    rw [div_lt_iff₀ hR] at h1
    linarith
  have h3 : ((⌊total / R⌋ : ℚ) + 1) ≤ ((itersFromLe R total 0 : ℚ) + 1) := by
    have hz : (⌊total / R⌋ + 1 : ℤ) ≤
        ((itersFromLe R total 0 : ℕ) : ℤ) + 1 := by
      unfold itersFromLe
      rw [sub_zero]
      omega
    exact_mod_cast hz
  have h4 : ((⌊total / R⌋ : ℚ) + 1) * R ≤
      ((itersFromLe R total 0 : ℚ) + 1) * R :=
    mul_le_mul_of_nonneg_right h3 (le_of_lt hR)
  linarith


/- ### Claim theorems -/

/-- C2 (amended): when no station is resolvable anywhere along the route,
    either because every reverse geocoding call fails or because every
    station lookup comes back empty, the utils planner returns an empty
    stop list as a normal value; no NoStationNearOrigin error exists in
    the code and nothing is raised. -/
theorem C2_unresolvable_returns_empty_plan (total : ℚ) (gs : List Station)
    (wps : List Point) (d : Point → Point → ℚ)
    (geo : Point → Option (String × String)) (hw : 2 ≤ wps.length)
    (H : (∀ p, geo p = none) ∨
      (∀ c s u, (find_nearest_gas_station_by_city c s gs u).1 = none)) :
    find_gas_stations_on_route total gs wps d geo = some [] := by
  unfold find_gas_stations_on_route
  rw [plan_skip true VEHICLE_RANGE_MILES MPG total d geo wps gs
    (by norm_num [VEHICLE_RANGE_MILES]) hw H (fuelFor total) 0 [] []
    (by unfold fuelFor; simp)]
  rfl

/-- Witness for C2 at a concrete 600 mile route whose geocoder always
    fails. -/
theorem C2_unresolvable_returns_empty_plan_witness :
    find_gas_stations_on_route 600 [] wps2 dLin (fun _ => none) = some [] :=
  C2_unresolvable_returns_empty_plan 600 [] wps2 dLin (fun _ => none)
    (by simp [wps2]) (Or.inl fun _ => rfl)

/-- C2 counterexample to the claim as stated: on a 700 mile route where no
    city resolves, the code returns the empty plan as a normal value
    instead of raising NoStationNearOrigin. -/
theorem C2_returns_empty_not_error_counterexample :
    find_gas_stations_on_route 700 [] wps2 (fun _ _ => 0) (fun _ => none) =
      some [] := by
  with_unfolding_all rfl

/-- C5 (amended): the station lookup inspects only the first catalog row
    matching the normalized city and state.  It returns that row exactly
    when its name is unused, marking it used; if the first match was
    already used it returns none without scanning further, even when later
    matching rows are unused. -/
theorem C5_first_match_only_lookup (c s : String) (gs : List Station)
    (used : List String) :
    match ((gs.map normStation).filter
        (stMatches c.trim.toLower s.trim.toUpper)).head? with
    | none => find_nearest_gas_station_by_city c s gs used = (none, used)
    | some st0 =>
        if st0.name ∈ used
        then find_nearest_gas_station_by_city c s gs used = (none, used)
        else find_nearest_gas_station_by_city c s gs used =
          (some st0, List.insert st0.name used) := by
  rcases hm : (gs.map normStation).filter
      (stMatches c.trim.toLower s.trim.toUpper) with _ | ⟨st0, rest⟩
  · simp only [List.head?_nil]
    simp [find_nearest_gas_station_by_city, hm]
  · simp only [List.head?_cons]
    by_cases hu : st0.name ∈ used
    · rw [if_pos hu]
      simp [find_nearest_gas_station_by_city, hm, hu]
    · rw [if_neg hu]
      simp [find_nearest_gas_station_by_city, hm, hu]

/-- C5 counterexample to the claim as stated: the catalog holds two
    stations in the same city, the first one is already used, the second
    one is unused and matching, yet the lookup returns none. -/
theorem C5_used_first_match_counterexample :
    (find_nearest_gas_station_by_city "x" "XX"
      [⟨"A", "", "x", "XX", some 3⟩, ⟨"B", "", "x", "XX", some 3⟩] ["A"]).1 =
      none ∧
    (⟨"B", "", "x", "XX", some 3⟩ : Station) ∈
      (([⟨"A", "", "x", "XX", some 3⟩,
         ⟨"B", "", "x", "XX", some 3⟩].map normStation).filter
        (stMatches "x" "XX")) ∧
    "B" ∉ ["A"] := by
  refine ⟨by with_unfolding_all rfl, ?_, by decide⟩
  have hf : (([⟨"A", "", "x", "XX", some 3⟩,
      ⟨"B", "", "x", "XX", some 3⟩].map normStation).filter
      (stMatches "x" "XX")) =
      [⟨"A", "", "x", "XX", some 3⟩, ⟨"B", "", "x", "XX", some 3⟩] := by
    with_unfolding_all rfl
  rw [hf]
  simp

/-- C6 (amended): with a total distance of zero the utils planner performs
    no iteration and returns the empty stop list, whose aggregated cost is
    zero; the views.py variant behaves differently (see counterexample). -/
theorem C6_zero_distance_empty_plan_utils (gs : List Station)
    (wps : List Point) (d : Point → Point → ℚ)
    (geo : Point → Option (String × String)) :
    find_gas_stations_on_route 0 gs wps d geo = some [] ∧
    calculate_total_fuel_cost [] = 0 := by
  constructor
  · with_unfolding_all rfl
  · with_unfolding_all rfl

/-- C6 counterexample to the claim as stated: the views.py planner copy,
    the one actually invoked by the endpoint, runs one iteration even when
    total distance is zero because its loop condition is non strict, and
    it can append a stop with nonzero cost. -/
theorem C6_views_zero_distance_counterexample :
    views_find_gas_stations_on_route 0 [stA] wps2 dLin geoAB =
      some [⟨"A", "", "A", "AA", 3, 44, 132, 0⟩] ∧
    calculate_total_fuel_cost [⟨"A", "", "A", "AA", 3, 44, 132, 0⟩] = 132 ∧
    ((132 : ℚ) ≠ 0) := by
  refine ⟨by with_unfolding_all rfl, by with_unfolding_all rfl, by norm_num⟩

/-- C7 (amended): with at least two waypoints and a nonnegative distance
    oracle, a target distance at most zero makes
    get_coordinates_at_distance return the SECOND waypoint (the endpoint
    of the first segment, not the first waypoint), and a target beyond the
    total route length returns the last waypoint rather than an error. -/
theorem C7_low_target_second_waypoint_beyond_last (d : Point → Point → ℚ)
    (wps : List Point) (t : ℚ) (hd : ∀ p q, 0 ≤ d p q)
    (h2 : 2 ≤ wps.length) :
    (t ≤ 0 → get_coordinates_at_distance d t wps = wps[1]?) ∧
    (routeLen d wps < t →
      get_coordinates_at_distance d t wps = wps.getLast?) := by
  constructor
  · intro ht
    rcases wps with _ | ⟨a, _ | ⟨b, l⟩⟩
    · simp at h2
    · simp at h2
    · unfold get_coordinates_at_distance
      rw [if_neg (by simp)]
      have hstep : t ≤ 0 + d a b := by
        have := hd a b
        linarith
      simp only [coordScan]
      rw [if_pos hstep]
      simp
  · intro ht
    unfold get_coordinates_at_distance
    rw [if_neg (by omega)]
    rw [coordScan_beyond hd wps 0 (by linarith)]

/-- Witness for C7 at a concrete two waypoint route with constant
    segment length five: target zero yields the second waypoint, target
    seven (beyond the total length five) yields the last waypoint. -/
theorem C7_low_target_second_waypoint_beyond_last_witness :
    get_coordinates_at_distance (fun _ _ => (5 : ℚ)) 0 wps2 = wps2[1]? ∧
    get_coordinates_at_distance (fun _ _ => (5 : ℚ)) 7 wps2 = wps2.getLast? := by
  constructor
  · exact (C7_low_target_second_waypoint_beyond_last (fun _ _ => (5 : ℚ)) wps2 0
      (fun _ _ => by norm_num) (by simp [wps2])).1 le_rfl
  · refine (C7_low_target_second_waypoint_beyond_last (fun _ _ => (5 : ℚ)) wps2 7
      (fun _ _ => by norm_num) (by simp [wps2])).2 ?_
    have h5 : routeLen (fun _ _ => (5 : ℚ)) wps2 = 5 := by with_unfolding_all rfl
    rw [h5]
    norm_num

/-- C7 counterexample to the claim as stated: at target distance zero the
    function returns the second waypoint, which differs from the first
    waypoint of the route. -/
theorem C7_returns_second_not_first_counterexample :
    get_coordinates_at_distance (fun _ _ => (5 : ℚ)) 0 wps2 =
      some ((1 : ℚ), (0 : ℚ)) ∧
    wps2[0]? = some ((0 : ℚ), (0 : ℚ)) ∧
    some ((1 : ℚ), (0 : ℚ)) ≠ (some ((0 : ℚ), (0 : ℚ)) : Option Point) := by
  refine ⟨by with_unfolding_all rfl, by with_unfolding_all rfl, by decide⟩

/-- C8 (amended): called with fewer than two waypoints the function does
    not raise any structured InsufficientWaypoints error; it absorbs the
    failure into the normal sentinel return value (None, None), modelled
    here as none. -/
theorem C8_few_waypoints_sentinel (d : Point → Point → ℚ) (t : ℚ)
    (wps : List Point) (h : wps.length < 2) :
    get_coordinates_at_distance d t wps = none := by
  unfold get_coordinates_at_distance
  rw [if_pos h]

/-- Witness for C8 on the empty waypoint list. -/
theorem C8_few_waypoints_sentinel_witness :
    get_coordinates_at_distance dLin 5 [] = none :=
  C8_few_waypoints_sentinel dLin 5 [] (by simp)

/-- C8 counterexample to the claim as stated: with zero or one waypoint
    the function returns the sentinel as a normal value, and the planner
    that later consumes the sentinel dies with an unstructured exception
    (modelled as none) rather than surfacing InsufficientWaypoints. -/
theorem C8_no_structured_error_counterexample :
    get_coordinates_at_distance dLin 5 [] = none ∧
    get_coordinates_at_distance dLin 5 [((0 : ℚ), (0 : ℚ))] = none ∧
    find_gas_stations_on_route 100 [] [((0 : ℚ), (0 : ℚ))] dLin geoAB =
      none := by
  refine ⟨by with_unfolding_all rfl, by with_unfolding_all rfl,
    by with_unfolding_all rfl⟩

/-- C1 (amended): in the views.py planner (the copy the endpoint calls)
    every leg of a produced plan is at most its VEHICLE_RANGE_MILES of
    440 provided every loop iteration appended a stop, i.e. the number of
    stops equals the number of iterations of the non strict loop; when an
    iteration skips, a leg can span several multiples of the range (see
    counterexample), and the utils.py revision cannot produce stops at
    all, because it raises on the first found station. -/
theorem C1_leg_bound_when_no_skip (total : ℚ) (gs : List Station)
    (wps : List Point) (d : Point → Point → ℚ)
    (geo : Point → Option (String × String)) (L : List FuelStop)
    (h : views_find_gas_stations_on_route total gs wps d geo = some L)
    (hlen : L.length = itersFromLe views_VEHICLE_RANGE_MILES total 0) :
    ∀ leg ∈ legsOf total L, leg ≤ views_VEHICLE_RANGE_MILES := by
  obtain ⟨tail, hL, _, hfull⟩ := plan_count_le views_VEHICLE_RANGE_MILES MPG
    total d geo wps gs (by norm_num [views_VEHICLE_RANGE_MILES]) _ _ _ _ _
    (views_planner_eq h)
  rw [List.nil_append] at hL
  subst hL
  have hmap := hfull hlen
  unfold legsOf
  rw [hmap]
  exact dense_legs views_VEHICLE_RANGE_MILES total _ 0
    (spec_dense_general views_VEHICLE_RANGE_MILES total
      (by norm_num [views_VEHICLE_RANGE_MILES]) _ 0
      (itersFromLe_bound views_VEHICLE_RANGE_MILES total
        (by norm_num [views_VEHICLE_RANGE_MILES])))

/-- Witness for C1 on a skip free two stop views run over 600 miles,
    whose legs are 440, 160 and 0 miles: each is within the range. -/
theorem C1_leg_bound_when_no_skip_witness :
    (440 : ℚ) ≤ views_VEHICLE_RANGE_MILES ∧
    (160 : ℚ) ≤ views_VEHICLE_RANGE_MILES ∧
    (0 : ℚ) ≤ views_VEHICLE_RANGE_MILES :=
  ⟨C1_leg_bound_when_no_skip 600 [stA, stB] wps3 dLin geoAB
      [⟨"A", "", "A", "AA", 3, 44, 132, 440⟩,
       ⟨"B", "", "B", "BB", 7/2, 44, 154, 600⟩]
      (by with_unfolding_all rfl) (by with_unfolding_all rfl) 440
      (by rw [show legsOf 600 [⟨"A", "", "A", "AA", 3, 44, 132, 440⟩,
          ⟨"B", "", "B", "BB", 7/2, 44, 154, 600⟩] = [440, 160, 0] from
          by with_unfolding_all rfl]
          exact List.mem_cons_self _ _),
   C1_leg_bound_when_no_skip 600 [stA, stB] wps3 dLin geoAB
      [⟨"A", "", "A", "AA", 3, 44, 132, 440⟩,
       ⟨"B", "", "B", "BB", 7/2, 44, 154, 600⟩]
      (by with_unfolding_all rfl) (by with_unfolding_all rfl) 160
      (by rw [show legsOf 600 [⟨"A", "", "A", "AA", 3, 44, 132, 440⟩,
          ⟨"B", "", "B", "BB", 7/2, 44, 154, 600⟩] = [440, 160, 0] from
          by with_unfolding_all rfl]
          exact List.mem_cons_of_mem _ (List.mem_cons_self _ _)),
   C1_leg_bound_when_no_skip 600 [stA, stB] wps3 dLin geoAB
      [⟨"A", "", "A", "AA", 3, 44, 132, 440⟩,
       ⟨"B", "", "B", "BB", 7/2, 44, 154, 600⟩]
      (by with_unfolding_all rfl) (by with_unfolding_all rfl) 0
      (by rw [show legsOf 600 [⟨"A", "", "A", "AA", 3, 44, 132, 440⟩,
          ⟨"B", "", "B", "BB", 7/2, 44, 154, 600⟩] = [440, 160, 0] from
          by with_unfolding_all rfl]
          exact List.mem_cons_of_mem _
            (List.mem_cons_of_mem _ (List.mem_cons_self _ _)))⟩

/-- C1 counterexample to the claim as stated: in the views planner, when
    the first iteration cannot resolve a city, the single appended stop
    sits 880 miles from the origin, so the first leg is 880 miles, which
    exceeds the 440 mile range. -/
theorem C1_leg_bound_counterexample :
    views_find_gas_stations_on_route 880 [stA, stB] wps3 dLin
      (fun p => if p = ((2 : ℚ), (0 : ℚ)) then some ("b", "BB") else none) =
      some [⟨"B", "", "B", "BB", 7/2, 44, 154, 880⟩] ∧
    legsOf 880 [⟨"B", "", "B", "BB", 7/2, 44, 154, 880⟩] = [880, 0] ∧
    ¬ ((880 : ℚ) ≤ views_VEHICLE_RANGE_MILES) := by
  refine ⟨by with_unfolding_all rfl, by with_unfolding_all rfl,
    by norm_num [views_VEHICLE_RANGE_MILES]⟩

/-- C3 (amended): every stop appended by the views planner records the
    constant views_VEHICLE_RANGE_MILES / MPG gallons (44), NOT the actual
    leg distance divided by MPG, and its cost is that constant times the
    price of a catalog station, the price defaulting to 3.50 when the
    record omits it; the utils revision raises before computing any fuel
    figure for a found station. -/
theorem C3_constant_fuel_per_stop (total : ℚ) (gs : List Station)
    (wps : List Point) (d : Point → Point → ℚ)
    (geo : Point → Option (String × String)) (L : List FuelStop)
    (h : views_find_gas_stations_on_route total gs wps d geo = some L) :
    ∀ fs ∈ L,
      fs.fuel_needed_gallons = round2 (views_VEHICLE_RANGE_MILES / MPG) ∧
      ∃ st ∈ gs.map normStation, fs.name = st.name ∧
        fs.fuel_price_per_gallon = round2 (st.price.getD FALLBACK_PRICE) ∧
        fs.total_cost = round2
          (views_VEHICLE_RANGE_MILES / MPG * st.price.getD FALLBACK_PRICE) := by
  obtain ⟨tail, hL, _, _, hel⟩ := plan_master_views views_VEHICLE_RANGE_MILES
    MPG total d geo wps gs (by norm_num [views_VEHICLE_RANGE_MILES]) _ _ _ _ _
    (views_planner_eq h)
  rw [List.nil_append] at hL
  subst hL
  intro fs hfs
  obtain ⟨_, _, _, _, h5, h6⟩ := hel fs hfs
  exact ⟨h5, h6⟩

/-- Witness for C3 at the first stop of the concrete 880 mile views
    run. -/
theorem C3_constant_fuel_per_stop_witness :
    (⟨"A", "", "A", "AA", 3, 44, 132, 440⟩ : FuelStop).fuel_needed_gallons =
      round2 (views_VEHICLE_RANGE_MILES / MPG) ∧
    ∃ st ∈ [stA, stB].map normStation,
      (⟨"A", "", "A", "AA", 3, 44, 132, 440⟩ : FuelStop).name = st.name ∧
      (⟨"A", "", "A", "AA", 3, 44, 132, 440⟩ : FuelStop).fuel_price_per_gallon =
        round2 (st.price.getD FALLBACK_PRICE) ∧
      (⟨"A", "", "A", "AA", 3, 44, 132, 440⟩ : FuelStop).total_cost =
        round2 (views_VEHICLE_RANGE_MILES / MPG * st.price.getD FALLBACK_PRICE) :=
  C3_constant_fuel_per_stop 880 [stA, stB] wps3 dLin geoAB
    [⟨"A", "", "A", "AA", 3, 44, 132, 440⟩,
     ⟨"B", "", "B", "BB", 7/2, 44, 154, 880⟩]
    (by with_unfolding_all rfl)
    ⟨"A", "", "A", "AA", 3, 44, 132, 440⟩ (by simp)

/-- C3 counterexample to the claim as stated: on a 300 mile route the
    single stop the views planner appends records a cumulative distance
    of 300 miles, so the leg distance divided by MPG is 30 gallons, yet
    the code records 44. -/
theorem C3_fuel_not_from_leg_counterexample :
    views_find_gas_stations_on_route 300 [stA] wps2 dLin geoAB =
      some [⟨"A", "", "A", "AA", 3, 44, 132, 300⟩] ∧
    (⟨"A", "", "A", "AA", 3, 44, 132, 300⟩ : FuelStop).fuel_needed_gallons = 44 ∧
    (⟨"A", "", "A", "AA", 3, 44, 132, 300⟩ : FuelStop).miles_traveled = 300 ∧
    ¬ ((44 : ℚ) = (300 - 0) / MPG) := by
  refine ⟨by with_unfolding_all rfl, rfl, rfl, by norm_num [MPG]⟩

/-- C4 (amended): in the views planner each stop records the minimum of
    the loop cursor (a positive multiple of its VEHICLE_RANGE_MILES of
    440) and the total distance, so the recorded cumulative distances
    form a non decreasing sequence; they are NOT strictly increasing in
    general (two trailing stops can both record the capped total, see the
    counterexample), the cursor itself exceeds the recorded value on a
    capped stop, and the utils revision never appends a stop at all. -/
theorem C4_recorded_distances_monotone (total : ℚ)
    (gs : List Station) (wps : List Point) (d : Point → Point → ℚ)
    (geo : Point → Option (String × String)) (L : List FuelStop)
    (h : views_find_gas_stations_on_route total gs wps d geo = some L) :
    List.Chain' (· ≤ ·) (L.map FuelStop.miles_traveled) ∧
    ∀ fs ∈ L, ∃ k : ℕ, 1 ≤ k ∧
      fs.miles_traveled = min ((k : ℚ) * views_VEHICLE_RANGE_MILES) total := by
  obtain ⟨tail, hL, hch, _, hel⟩ := plan_master_views views_VEHICLE_RANGE_MILES
    MPG total d geo wps gs (by norm_num [views_VEHICLE_RANGE_MILES]) _ _ _ _ _
    (views_planner_eq h)
  rw [List.nil_append] at hL
  subst hL
  refine ⟨hch, ?_⟩
  intro fs hfs
  obtain ⟨_, _, ⟨k, hk1, hk2⟩, _⟩ := hel fs hfs
  exact ⟨k, hk1, by rw [hk2, zero_add]⟩

/-- Witness for C4 on the concrete two stop 880 mile views run. -/
theorem C4_recorded_distances_monotone_witness :
    List.Chain' (· ≤ ·)
      (([⟨"A", "", "A", "AA", 3, 44, 132, 440⟩,
         ⟨"B", "", "B", "BB", 7/2, 44, 154, 880⟩] : List FuelStop).map
        FuelStop.miles_traveled) ∧
    ∀ fs ∈ ([⟨"A", "", "A", "AA", 3, 44, 132, 440⟩,
        ⟨"B", "", "B", "BB", 7/2, 44, 154, 880⟩] : List FuelStop),
      ∃ k : ℕ, 1 ≤ k ∧
        fs.miles_traveled = min ((k : ℚ) * views_VEHICLE_RANGE_MILES) 880 :=
  C4_recorded_distances_monotone 880 [stA, stB] wps3 dLin geoAB
    [⟨"A", "", "A", "AA", 3, 44, 132, 440⟩,
     ⟨"B", "", "B", "BB", 7/2, 44, 154, 880⟩]
    (by with_unfolding_all rfl)

/-- C4 counterexample to the claim as stated: the views.py planner copy
    runs one extra iteration past the destination, so two consecutive
    stops both record the capped distance 440 and the recorded sequence is
    not strictly increasing (nor equal to the cursor, which is 880 at the
    second stop). -/
theorem C4_views_duplicate_distance_counterexample :
    views_find_gas_stations_on_route 440 [stA, stB] wps3 dLin geoAB =
      some [⟨"A", "", "A", "AA", 3, 44, 132, 440⟩,
            ⟨"B", "", "B", "BB", 7/2, 44, 154, 440⟩] ∧
    ¬ List.Chain' (· < ·)
      (([⟨"A", "", "A", "AA", 3, 44, 132, 440⟩,
         ⟨"B", "", "B", "BB", 7/2, 44, 154, 440⟩] : List FuelStop).map
        FuelStop.miles_traveled) := by
  constructor
  · with_unfolding_all rfl
  · intro hch
    have hmap : (([⟨"A", "", "A", "AA", 3, 44, 132, 440⟩,
        ⟨"B", "", "B", "BB", 7/2, 44, 154, 440⟩] : List FuelStop).map
        FuelStop.miles_traveled) = [(440 : ℚ), 440] := rfl
    rw [hmap] at hch
    rw [List.chain'_cons] at hch
    exact lt_irrefl _ hch.1

/-- C9 (amended): the planner loop always terminates, within a fuel bound
    of one plus the ceiling of the total distance, for either revision
    and any parameters; with at least two waypoints the views planner
    always returns an actual result, while the utils revision either
    returns the empty plan (every iteration skipped) or dies with the
    Series truthiness ValueError as soon as any station is found, so it
    never returns a non empty plan (see counterexample). -/
theorem C9_loop_terminates (total : ℚ) (d : Point → Point → ℚ)
    (geo : Point → Option (String × String)) (wps : List Point)
    (gs : List Station) (hw : 2 ≤ wps.length) :
    (∃ L, views_find_gas_stations_on_route total gs wps d geo = some L) ∧
    (find_gas_stations_on_route total gs wps d geo = some [] ∨
      find_gas_stations_on_route total gs wps d geo = none) ∧
    ∀ (b : Bool) (R M : ℚ), 1 ≤ R →
      (planLoopFuel b R M total d geo wps gs
        (fuelFor total) 0 [] []).isSome := by
  refine ⟨?_, utils_planner_cases total gs wps d geo, ?_⟩
  · obtain ⟨L, hL⟩ := plan_total views_VEHICLE_RANGE_MILES MPG total d
      geo wps gs (by norm_num [views_VEHICLE_RANGE_MILES]) hw (fuelFor total)
      0 [] [] (by unfold fuelFor; simp)
    exact ⟨L, by unfold views_find_gas_stations_on_route; rw [hL]; rfl⟩
  · intro b R M hR
    exact fuel_suff b R M total d geo wps gs hR (fuelFor total) 0 [] []
      (by unfold fuelFor; simp)

/-- Witness for C9 at the concrete 800 mile input. -/
theorem C9_loop_terminates_witness :
    (∃ L, views_find_gas_stations_on_route 800 [stA, stB] wps3 dLin geoAB =
      some L) ∧
    (find_gas_stations_on_route 800 [stA, stB] wps3 dLin geoAB = some [] ∨
      find_gas_stations_on_route 800 [stA, stB] wps3 dLin geoAB = none) ∧
    (planLoopFuel true 500 10 800 dLin geoAB wps3 [stA, stB]
      (fuelFor 800) 0 [] []).isSome :=
  ⟨(C9_loop_terminates 800 dLin geoAB wps3 [stA, stB] (by simp [wps3])).1,
   (C9_loop_terminates 800 dLin geoAB wps3 [stA, stB] (by simp [wps3])).2.1,
   (C9_loop_terminates 800 dLin geoAB wps3 [stA, stB] (by simp [wps3])).2.2
     true 500 10 (by norm_num)⟩

/-- C9 counterexample to the claim as stated: the utils planner dies with
    the Series truthiness ValueError the moment a station is found (an
    800 mile route with resolvable stations and plenty of waypoints,
    modelled as none), and with an empty waypoint list the loop body dies
    with a TypeError; in neither case is a result returned even though
    the loop itself would terminate. -/
theorem C9_crash_no_result_counterexample :
    find_gas_stations_on_route 800 [stA, stB] wps3 dLin geoAB = none ∧
    find_gas_stations_on_route 100 [] [] (fun _ _ => 0) (fun _ => none) =
      none := by
  refine ⟨by with_unfolding_all rfl, by with_unfolding_all rfl⟩

/-- C10: whenever the station lookup returns a station, that name was not
    in used_stations at call time and has been inserted into the returned
    used set by the lookup itself; consequently no station name appears
    twice across the stops of one planning run, for the views planner
    because every appended name goes into the growing used set, and for
    the utils planner vacuously because a completed run has no stops. -/
theorem C10_lookup_marks_used_no_duplicates :
    (∀ (c s : String) (gs : List Station) (used u : List String)
        (st : Station),
      find_nearest_gas_station_by_city c s gs used = (some st, u) →
        st.name ∉ used ∧ st.name ∈ u) ∧
    (∀ (total : ℚ) (gs : List Station) (wps : List Point)
        (d : Point → Point → ℚ) (geo : Point → Option (String × String))
        (L : List FuelStop),
      views_find_gas_stations_on_route total gs wps d geo = some L →
        (L.map FuelStop.name).Nodup) ∧
    (∀ (total : ℚ) (gs : List Station) (wps : List Point)
        (d : Point → Point → ℚ) (geo : Point → Option (String × String))
        (L : List FuelStop),
      find_gas_stations_on_route total gs wps d geo = some L →
        (L.map FuelStop.name).Nodup) := by
  refine ⟨?_, ?_, ?_⟩
  · intro c s gs used u st h
    obtain ⟨_, hnot, hu⟩ := find_station_some h
    exact ⟨hnot, by rw [hu]; exact List.mem_insert_self _ _⟩
  · intro total gs wps d geo L h
    obtain ⟨tail, hL, _, hnd, _⟩ := plan_master_views views_VEHICLE_RANGE_MILES
      MPG total d geo wps gs (by norm_num [views_VEHICLE_RANGE_MILES]) _ _ _ _ _
      (views_planner_eq h)
    rw [List.nil_append] at hL
    subst hL
    exact hnd
  · intro total gs wps d geo L h
    have hL : L = [] := plan_master_utils VEHICLE_RANGE_MILES MPG total d geo
      wps gs (fuelFor total) 0 [] [] L (utils_planner_eq h)
    rw [hL]
    simp

/-- Witness for C10: a concrete lookup that returns station A marks it
    used, the concrete two stop views run has pairwise distinct stop
    names, and a completed utils run (all iterations skipped) has the
    trivially duplicate free empty stop list. -/
theorem C10_lookup_marks_used_no_duplicates_witness :
    (stA.name ∉ ([] : List String) ∧ stA.name ∈ ["A"]) ∧
    (([⟨"A", "", "A", "AA", 3, 44, 132, 440⟩,
       ⟨"B", "", "B", "BB", 7/2, 44, 154, 880⟩] : List FuelStop).map
      FuelStop.name).Nodup ∧
    (([] : List FuelStop).map FuelStop.name).Nodup :=
  ⟨C10_lookup_marks_used_no_duplicates.1 "a" "AA" [stA] [] ["A"] stA
      (by with_unfolding_all rfl),
   C10_lookup_marks_used_no_duplicates.2.1 880 [stA, stB] wps3 dLin geoAB
      [⟨"A", "", "A", "AA", 3, 44, 132, 440⟩,
       ⟨"B", "", "B", "BB", 7/2, 44, 154, 880⟩]
      (by with_unfolding_all rfl),
   C10_lookup_marks_used_no_duplicates.2.2 700 [] wps2 dLin (fun _ => none)
      [] (by with_unfolding_all rfl)⟩

end FuelTrack